import Mathlib

/-!
Verification of the PowerOcean integration (custom_components/ecoflow and
custom_components/powerocean) against its natural-language specification.

The Python source is shallowly embedded: Python dicts become insertion-ordered
association lists, machine integers become `Nat`, Python floats become `ℚ`,
raised exceptions become `Except`/`Option` error values caught exactly where
the source catches them.  Each definition mirrors one function of the source
tree; theorems at the end settle the specification claims.
-/

namespace PowerOcean

/-! ## Python dict primitives

A Python `dict` is insertion ordered.  `d[k] = v` updates the value in place
when the key is present (keeping its position) and appends otherwise;
`d.get(k)` / `d[k]` looks up the first (unique) occurrence. -/

def pyLookup {κ α : Type} [DecidableEq κ] : List (κ × α) → κ → Option α
  | [], _ => none
  | (k, v) :: rest, key => if k = key then some v else pyLookup rest key

def pyDictSet {κ α : Type} [DecidableEq κ] : List (κ × α) → κ → α → List (κ × α)
  | [], key, v => [(key, v)]
  | (k, w) :: rest, key, v =>
    if k = key then (k, v) :: rest else (k, w) :: pyDictSet rest key v

theorem pyLookup_dictSet_self {κ α : Type} [DecidableEq κ]
    (d : List (κ × α)) (k : κ) (v : α) : pyLookup (pyDictSet d k v) k = some v := by
  induction d with
  | nil => simp [pyDictSet, pyLookup]
  | cons hd tl ih =>
    obtain ⟨k1, v1⟩ := hd
    by_cases h : k1 = k
    · simp [pyDictSet, pyLookup, h]
    · simp [pyDictSet, pyLookup, h, ih]

theorem pyLookup_dictSet_ne {κ α : Type} [DecidableEq κ]
    (d : List (κ × α)) (k k' : κ) (v : α) (h : k ≠ k') :
    pyLookup (pyDictSet d k v) k' = pyLookup d k' := by
  induction d with
  | nil => simp [pyDictSet, pyLookup, h]
  | cons hd tl ih =>
    obtain ⟨k1, v1⟩ := hd
    by_cases h1 : k1 = k
    · subst h1
      simp [pyDictSet, pyLookup, h]
    · simp [pyDictSet, pyLookup, h1, ih]

theorem pyDictSet_append_of_none {κ α : Type} [DecidableEq κ]
    (d : List (κ × α)) (k : κ) (v : α) (h : pyLookup d k = none) :
    pyDictSet d k v = d ++ [(k, v)] := by
  induction d with
  | nil => simp [pyDictSet]
  | cons hd tl ih =>
    obtain ⟨k1, v1⟩ := hd
    by_cases h1 : k1 = k
    · simp [pyLookup, h1] at h
    · simp [pyLookup, h1] at h
      simp [pyDictSet, h1, ih h]

theorem pyLookup_append {κ α : Type} [DecidableEq κ]
    (d1 d2 : List (κ × α)) (k : κ) :
    pyLookup (d1 ++ d2) k = ((pyLookup d1 k).orElse fun _ => pyLookup d2 k) := by
  induction d1 with
  | nil => simp [pyLookup]
  | cons hd tl ih =>
    obtain ⟨k1, v1⟩ := hd
    by_cases h1 : k1 = k
    · simp [pyLookup, h1]
    · simp [pyLookup, h1, ih]

/-! ## Binary TLV decoder
(`custom_components/ecoflow/protobuf_handler.py`, class `PowerOceanProtobufHandler`)

Bytes are naturals `< 256`; a raised Python exception inside the decoder is an
`Except.error`, caught at the `_decode_property_message` boundary which then
returns `None` (`Option.none`). -/

/-- Raw decoded value as the source stores it in `values[field_id]`:
an `int` for wire types 0/1/5, a `bytes` slice for wire type 2. -/
inductive RawVal : Type where
  | int (n : ℕ)
  | bytes (bs : List ℕ)
deriving DecidableEq, Repr

/-- `_decode_varint` loop: `value |= (b & 0x7f) << shift; shift += 7` until the
continuation bit `b & 0x80` is clear; an exhausted buffer raises `ValueError`. -/
def decodeVarintAux : List ℕ → ℕ → ℕ → ℕ → Except Unit (ℕ × ℕ)
  | [], _, _, _ => .error ()
  | b :: rest, value, shift, offset =>
    let value' := value ||| ((b &&& 0x7f) <<< shift)
    if b &&& 0x80 = 0 then .ok (value', offset + 1)
    else decodeVarintAux rest value' (shift + 7) (offset + 1)

/-- `PowerOceanProtobufHandler._decode_varint`: returns `(value, bytes_read)`. -/
def decodeVarint (buffer : List ℕ) : Except Unit (ℕ × ℕ) :=
  decodeVarintAux buffer 0 0 0

/-- `struct.unpack("<Q"/"<I", ...)`: little-endian reassembly of a byte list. -/
def fromLEBytes : List ℕ → ℕ
  | [] => 0
  | b :: rest => b + 256 * fromLEBytes rest

/-- `struct.unpack(">I", ...)`: big-endian reassembly of a byte list. -/
def fromBEBytes (bs : List ℕ) : ℕ :=
  bs.foldl (fun acc b => 256 * acc + b) 0

/-- The field loop of `_decode_property_message`: one leading tag byte per field
(`field_id = b >> 3`, `wire_type = b & 0x07`), then a value by wire type.
Wire types 0/1/2/5 are handled; any other wire type breaks out of the loop
returning the fields parsed so far.  `struct.unpack` on fewer bytes than the
fixed width raises (error); a Python slice for wire type 2 truncates silently. -/
def decodeFields (msg : List ℕ) (values : List (ℕ × RawVal)) :
    Except Unit (List (ℕ × RawVal)) :=
  match msg with
  | [] => .ok values
  | tag :: rest =>
    let field_id := tag >>> 3
    let wire_type := tag &&& 0x07
    if wire_type = 0 then
      match decodeVarint rest with
      | .error e => .error e
      | .ok (val, k) => decodeFields (rest.drop k) (pyDictSet values field_id (.int val))
    else if wire_type = 1 then
      if rest.length < 8 then .error ()
      else decodeFields (rest.drop 8)
        (pyDictSet values field_id (.int (fromLEBytes (rest.take 8))))
    else if wire_type = 2 then
      match decodeVarint rest with
      | .error e => .error e
      | .ok (len, k) => decodeFields ((rest.drop k).drop len)
          (pyDictSet values field_id (.bytes ((rest.drop k).take len)))
    else if wire_type = 5 then
      if rest.length < 4 then .error ()
      else decodeFields (rest.drop 4)
        (pyDictSet values field_id (.int (fromLEBytes (rest.take 4))))
    else .ok values
termination_by msg.length
decreasing_by
  all_goals simp [List.length_drop]
  all_goals omega

/-- `PowerOceanProtobufHandler._decode_property_message`: 4-byte big-endian
length prefix, declared-length check, then the TLV field loop; every caught
exception yields `None`.  (The source wraps the result as `{"values": values}`;
we return the inner mapping.) -/
def decodePropertyMessage (payload : List ℕ) : Option (List (ℕ × RawVal)) :=
  if payload.length < 4 then none
  else
    let msg_len := fromBEBytes (payload.take 4)
    if payload.length < msg_len + 4 then none
    else
      let msg_payload := (payload.drop 4).take msg_len
      match decodeFields msg_payload [] with
      | .ok values => some values
      | .error _ => none

/-! ### Reference encoder (test-only, per §8 of the spec)

Encodes a field mapping in exactly the wire format `_decode_property_message`
consumes: a single tag byte per field (so field numbers are `< 32`), then the
value in the selected wire type, the whole body behind a 4-byte big-endian
length prefix. -/

inductive WireVal : Type where
  | varint (n : ℕ)
  | fixed64 (n : ℕ)
  | lengthDelim (bs : List ℕ)
  | fixed32 (n : ℕ)
deriving DecidableEq, Repr

def WireVal.wt : WireVal → ℕ
  | .varint _ => 0
  | .fixed64 _ => 1
  | .lengthDelim _ => 2
  | .fixed32 _ => 5

/-- The raw value the decoder reports for an encoded `WireVal`. -/
def WireVal.raw : WireVal → RawVal
  | .varint n => .int n
  | .fixed64 n => .int n
  | .lengthDelim bs => .bytes bs
  | .fixed32 n => .int n

/-- Value fits its wire type (and length-delimited payloads are bytes). -/
def WireVal.wfb : WireVal → Bool
  | .varint _ => true
  | .fixed64 n => n < 2 ^ 64
  | .lengthDelim bs => bs.all (· < 256)
  | .fixed32 n => n < 2 ^ 32

/-- Standard base-128 varint encoding, low groups first. -/
def encodeVarint (n : ℕ) : List ℕ :=
  if h : n < 128 then [n] else (n % 128 + 128) :: encodeVarint (n / 128)
termination_by n
decreasing_by omega

/-- `k`-byte little-endian encoding of `n`. -/
def toLEBytes : ℕ → ℕ → List ℕ
  | 0, _ => []
  | k + 1, n => (n % 256) :: toLEBytes k (n / 256)

/-- `k`-byte big-endian encoding of `n`. -/
def toBEBytes (k n : ℕ) : List ℕ := (toLEBytes k n).reverse

def encodeField (fid : ℕ) (v : WireVal) : List ℕ :=
  ((fid <<< 3) ||| v.wt) ::
    match v with
    | .varint n => encodeVarint n
    | .fixed64 n => toLEBytes 8 n
    | .lengthDelim bs => encodeVarint bs.length ++ bs
    | .fixed32 n => toLEBytes 4 n

def encodeBody (fields : List (ℕ × WireVal)) : List ℕ :=
  (fields.map fun p => encodeField p.1 p.2).flatten

def encodeMsg (fields : List (ℕ × WireVal)) : List ℕ :=
  toBEBytes 4 (encodeBody fields).length ++ encodeBody fields

/-! ### Round-trip lemmas -/

theorem lor_shift_add (a n s : ℕ) (h : a < 2 ^ s) :
    a ||| (n <<< s) = a + n * 2 ^ s := by
  have h1 : 2 ^ s * n + a = 2 ^ s * n ||| a := Nat.mul_add_lt_is_or h n
  rw [Nat.shiftLeft_eq, Nat.lor_comm, mul_comm n (2 ^ s)]
  omega

theorem and127_eq_mod (b : ℕ) : b &&& 127 = b % 128 := by
  have h : (127 : ℕ) = 2 ^ 7 - 1 := by norm_num
  have := Nat.and_pow_two_sub_one_eq_mod b 7
  rw [h]
  simpa using this

theorem and128_of_lt (n : ℕ) (h : n < 128) : n &&& 128 = 0 := by
  apply Nat.eq_of_testBit_eq
  intro i
  simp only [Nat.testBit_and, Nat.zero_testBit]
  have h128 : (128 : ℕ) = 2 ^ 7 := by norm_num
  rw [h128, Nat.testBit_two_pow]
  rcases eq_or_ne 7 i with rfl | hne
  · simp [Nat.testBit_lt_two_pow (show n < 2 ^ 7 by omega)]
  · simp [hne]

theorem and128_of_ge (r : ℕ) (h : r < 128) : (r + 128) &&& 128 ≠ 0 := by
  intro h0
  have h128 : (128 : ℕ) = 2 ^ 7 := by norm_num
  have h7 : ((r + 128) &&& 128).testBit 7 = true := by
    simp only [Nat.testBit_and]
    have ha : (r + 128).testBit 7 = true := by
      have : r + 128 = 2 ^ 7 + r := by omega
      rw [this, Nat.testBit_two_pow_add_eq,
        Nat.testBit_lt_two_pow (show r < 2 ^ 7 by omega)]
      rfl
    have hb : (128 : ℕ).testBit 7 = true := by
      rw [h128]
      exact Nat.testBit_two_pow_self
    simp [ha, hb]
  rw [h0] at h7
  simp at h7

theorem decodeVarintAux_encode (n : ℕ) :
    ∀ (tl : List ℕ) (acc shift offset : ℕ), acc < 2 ^ shift →
      decodeVarintAux (encodeVarint n ++ tl) acc shift offset =
        .ok (acc + n * 2 ^ shift, offset + (encodeVarint n).length) := by
  induction n using Nat.strong_induction_on with
  | _ n ih =>
    intro tl acc shift offset hacc
    rw [encodeVarint]
    by_cases h : n < 128
    · simp only [dif_pos h, List.cons_append, List.nil_append]
      rw [decodeVarintAux]
      simp only [and128_of_lt n h, if_pos rfl]
      rw [and127_eq_mod, Nat.mod_eq_of_lt h,
        lor_shift_add acc n shift hacc]
      rfl
    · simp only [dif_neg h, List.cons_append]
      rw [decodeVarintAux]
      have hne := and128_of_ge (n % 128) (Nat.mod_lt n (by norm_num))
      simp only [show (0x80 : ℕ) = 128 from rfl, hne, if_neg hne]
      rw [and127_eq_mod]
      have hmod : (n % 128 + 128) % 128 = n % 128 := by omega
      rw [hmod, lor_shift_add acc (n % 128) shift hacc]
      have hlt : acc + n % 128 * 2 ^ shift < 2 ^ (shift + 7) := by
        have h1 : n % 128 < 128 := Nat.mod_lt n (by norm_num)
        have h2 : (2 : ℕ) ^ (shift + 7) = 2 ^ shift * 128 := by
          rw [pow_add]
          norm_num
        nlinarith [hacc, h1, Nat.pos_pow_of_pos shift (show 0 < 2 by norm_num)]
      rw [ih (n / 128) (by omega) tl _ (shift + 7) (offset + 1) hlt]
      have hval : acc + n % 128 * 2 ^ shift + n / 128 * 2 ^ (shift + 7) =
          acc + n * 2 ^ shift := by
        have h2 : (2 : ℕ) ^ (shift + 7) = 2 ^ shift * 128 := by
          rw [pow_add]
          norm_num
        have h3 : n % 128 + 128 * (n / 128) = n := Nat.mod_add_div n 128
        calc acc + n % 128 * 2 ^ shift + n / 128 * 2 ^ (shift + 7)
            = acc + (n % 128 + 128 * (n / 128)) * 2 ^ shift := by rw [h2]; ring
          _ = acc + n * 2 ^ shift := by rw [h3]
      rw [hval]
      simp [List.length_cons]
      omega

theorem decodeVarint_encode (n : ℕ) (tl : List ℕ) :
    decodeVarint (encodeVarint n ++ tl) = .ok (n, (encodeVarint n).length) := by
  have := decodeVarintAux_encode n tl 0 0 0 (by norm_num)
  simpa [decodeVarint] using this

theorem decodeVarintAux_allCont (bs : List ℕ) (h : ∀ b ∈ bs, b &&& 128 ≠ 0) :
    ∀ acc shift offset, decodeVarintAux bs acc shift offset = .error () := by
  induction bs with
  | nil => intro acc shift offset; rfl
  | cons b rest ih =>
    intro acc shift offset
    rw [decodeVarintAux]
    have hb : b &&& 128 ≠ 0 := h b (by simp)
    simp only [show (0x80 : ℕ) = 128 from rfl, if_neg hb]
    exact ih (fun x hx => h x (by simp [hx])) _ _ _

theorem toLEBytes_length (k n : ℕ) : (toLEBytes k n).length = k := by
  induction k generalizing n with
  | zero => rfl
  | succ k ih => simp [toLEBytes, ih]

theorem fromLE_toLE (k n : ℕ) (h : n < 256 ^ k) :
    fromLEBytes (toLEBytes k n) = n := by
  induction k generalizing n with
  | zero =>
    simp [toLEBytes, fromLEBytes]
    omega
  | succ k ih =>
    rw [toLEBytes, fromLEBytes, ih (n / 256) (by
      rw [Nat.div_lt_iff_lt_mul (by norm_num)]
      calc n < 256 ^ (k + 1) := h
        _ = 256 ^ k * 256 := by rw [pow_succ])]
    omega

theorem fromBE_reverse (l : List ℕ) : fromBEBytes l.reverse = fromLEBytes l := by
  induction l with
  | nil => rfl
  | cons b rest ih =>
    rw [fromLEBytes, ← ih]
    simp only [List.reverse_cons, fromBEBytes, List.foldl_append, List.foldl_cons,
      List.foldl_nil]
    omega

theorem fromBE_toBE (k n : ℕ) (h : n < 256 ^ k) : fromBEBytes (toBEBytes k n) = n := by
  rw [toBEBytes, fromBE_reverse, fromLE_toLE k n h]

theorem toBEBytes_length (k n : ℕ) : (toBEBytes k n).length = k := by
  simp [toBEBytes, toLEBytes_length]

theorem tag_spec : ∀ fid < 32, ∀ wt < 8,
    ((fid <<< 3) ||| wt) >>> 3 = fid ∧ ((fid <<< 3) ||| wt) &&& 7 = wt := by
  decide

theorem WireVal.wt_lt (v : WireVal) : v.wt < 8 := by
  cases v <;> simp [WireVal.wt]

theorem decodeFields_step (fid : ℕ) (v : WireVal) (rest : List ℕ)
    (values : List (ℕ × RawVal)) (hfid : fid < 32) (hwf : v.wfb = true) :
    decodeFields (encodeField fid v ++ rest) values =
      decodeFields rest (pyDictSet values fid v.raw) := by
  cases v with
  | varint n =>
    obtain ⟨htag1, htag2⟩ := tag_spec fid hfid 0 (by norm_num)
    rw [encodeField, List.cons_append, decodeFields]
    simp only [WireVal.wt, List.append_assoc, htag1, htag2,
      decodeVarint_encode n rest, if_pos rfl, List.drop_left]
    rfl
  | fixed64 n =>
    obtain ⟨htag1, htag2⟩ := tag_spec fid hfid 1 (by norm_num)
    rw [encodeField, List.cons_append, decodeFields]
    have hlen : (toLEBytes 8 n).length = 8 := toLEBytes_length 8 n
    have hn : n < 256 ^ 8 := by
      have h256 : (256 : ℕ) ^ 8 = 2 ^ 64 := by norm_num
      rw [h256]
      simpa [WireVal.wfb] using hwf
    simp only [WireVal.wt, List.append_assoc, htag1, htag2, List.length_append, hlen]
    rw [List.take_left' hlen, List.drop_left' hlen, fromLE_toLE 8 n hn]
    norm_num [WireVal.raw]
  | lengthDelim bs =>
    obtain ⟨htag1, htag2⟩ := tag_spec fid hfid 2 (by norm_num)
    rw [encodeField, List.cons_append, decodeFields]
    simp only [WireVal.wt, List.append_assoc, htag1, htag2,
      decodeVarint_encode bs.length (bs ++ rest)]
    rw [if_pos trivial]
    simp only [List.drop_left, List.take_left]
    rfl
  | fixed32 n =>
    obtain ⟨htag1, htag2⟩ := tag_spec fid hfid 5 (by norm_num)
    rw [encodeField, List.cons_append, decodeFields]
    have hlen : (toLEBytes 4 n).length = 4 := toLEBytes_length 4 n
    have hn : n < 256 ^ 4 := by
      have h256 : (256 : ℕ) ^ 4 = 2 ^ 32 := by norm_num
      rw [h256]
      simpa [WireVal.wfb] using hwf
    simp only [WireVal.wt, List.append_assoc, htag1, htag2, List.length_append, hlen]
    rw [List.take_left' hlen, List.drop_left' hlen, fromLE_toLE 4 n hn]
    norm_num [WireVal.raw]

theorem decodeFields_encodeBody (fields : List (ℕ × WireVal)) :
    ∀ values : List (ℕ × RawVal),
      (∀ p ∈ fields, p.1 < 32 ∧ p.2.wfb = true) →
      decodeFields (encodeBody fields) values =
        .ok (fields.foldl (fun acc p => pyDictSet acc p.1 p.2.raw) values) := by
  induction fields with
  | nil =>
    intro values _
    show decodeFields [] values = _
    rw [decodeFields]
    rfl
  | cons p rest ih =>
    intro values hp
    have hbody : encodeBody (p :: rest) = encodeField p.1 p.2 ++ encodeBody rest := by
      simp [encodeBody]
    rw [hbody, decodeFields_step p.1 p.2 _ values (hp p (by simp)).1 (hp p (by simp)).2,
      ih _ (fun q hq => hp q (by simp [hq]))]
    rfl

theorem foldl_pyDictSet_fresh (fields : List (ℕ × WireVal)) :
    ∀ values : List (ℕ × RawVal),
      (fields.map Prod.fst).Nodup →
      (∀ p ∈ fields, pyLookup values p.1 = none) →
      fields.foldl (fun acc p => pyDictSet acc p.1 p.2.raw) values =
        values ++ fields.map (fun p => (p.1, p.2.raw)) := by
  induction fields with
  | nil => intro values _ _; simp
  | cons p rest ih =>
    intro values hnodup hfresh
    simp only [List.foldl_cons]
    rw [pyDictSet_append_of_none values p.1 p.2.raw (hfresh p (by simp))]
    rw [ih _ (by simpa using hnodup.of_cons) ?_]
    · simp
    · intro q hq
      rw [pyLookup_append]
      have h1 : pyLookup values q.1 = none := hfresh q (by simp [hq])
      have h2 : q.1 ≠ p.1 := by
        simp only [List.map_cons, List.nodup_cons] at hnodup
        intro he
        exact hnodup.1 (he ▸ List.mem_map_of_mem Prod.fst hq)
      simp [h1, pyLookup, h2.symm]

/-- C3: decoding the length-prefixed TLV encoding of a field mapping returns
exactly that mapping (field numbers encodable in one tag byte, values fitting
their wire type, distinct field numbers). -/
theorem tlv_decode_encode_roundtrip (fields : List (ℕ × WireVal))
    (hfid : ∀ p ∈ fields, p.1 < 32)
    (hwf : ∀ p ∈ fields, p.2.wfb = true)
    (hnodup : (fields.map Prod.fst).Nodup)
    (hlen : (encodeBody fields).length < 2 ^ 32) :
    decodePropertyMessage (encodeMsg fields) =
      some (fields.map (fun p => (p.1, p.2.raw))) := by
  have h32 : (encodeBody fields).length < 256 ^ 4 := by
    have : (256 : ℕ) ^ 4 = 2 ^ 32 := by norm_num
    omega
  have hblen : (toBEBytes 4 (encodeBody fields).length).length = 4 :=
    toBEBytes_length 4 _
  rw [decodePropertyMessage, encodeMsg]
  rw [List.take_left' hblen, List.drop_left' hblen]
  simp only [List.length_append, hblen, fromBE_toBE 4 _ h32]
  rw [if_neg (by omega), if_neg (by omega), List.take_length]
  rw [decodeFields_encodeBody fields [] (fun p hp => ⟨hfid p hp, hwf p hp⟩)]
  rw [foldl_pyDictSet_fresh fields [] hnodup (fun p _ => rfl)]
  simp

/-- Witness for C3 at a concrete mapping exercising all four wire types. -/
theorem tlv_decode_encode_roundtrip_witness :
    decodePropertyMessage (encodeMsg
        [(1, .varint 300), (2, .fixed64 5), (3, .lengthDelim [9, 250]), (4, .fixed32 7)]) =
      some [(1, .int 300), (2, .int 5), (3, .bytes [9, 250]), (4, .int 7)] :=
  tlv_decode_encode_roundtrip
    [(1, .varint 300), (2, .fixed64 5), (3, .lengthDelim [9, 250]), (4, .fixed32 7)]
    (by decide) (by decide) (by decide)
    (by
      have h2 : encodeVarint 2 = [2] := by
        rw [encodeVarint]
        norm_num
      have h300 : encodeVarint 300 = [172, 2] := by
        rw [encodeVarint]
        norm_num [h2]
      simp [encodeBody, encodeField, WireVal.wt, toLEBytes, h300, h2])

/-- C8: the property-message decoder yields no result (rather than raising)
both on a payload whose 4-byte length prefix declares more bytes than are
present, and on a message body whose varint runs out of buffer before a byte
with the continuation bit clear. -/
theorem decoder_no_throw :
    (∀ payload : List ℕ, 4 ≤ payload.length →
      payload.length < fromBEBytes (payload.take 4) + 4 →
      decodePropertyMessage payload = none) ∧
    (∀ bs : List ℕ, (∀ b ∈ bs, b &&& 0x80 ≠ 0) → bs.length + 1 < 2 ^ 32 →
      decodePropertyMessage (toBEBytes 4 (bs.length + 1) ++ 0 :: bs) = none) := by
  constructor
  · intro payload h4 hshort
    rw [decodePropertyMessage, if_neg (by omega), if_pos hshort]
  · intro bs hcont hlen
    have h32 : bs.length + 1 < 256 ^ 4 := by
      have : (256 : ℕ) ^ 4 = 2 ^ 32 := by norm_num
      omega
    have hblen : (toBEBytes 4 (bs.length + 1)).length = 4 := toBEBytes_length 4 _
    rw [decodePropertyMessage]
    rw [List.take_left' hblen, List.drop_left' hblen]
    simp only [List.length_append, hblen, List.length_cons, fromBE_toBE 4 _ h32]
    rw [if_neg (by omega), if_neg (by omega)]
    have htake : (0 :: bs).take (bs.length + 1) = 0 :: bs := by
      have h1 : (0 :: bs).length = bs.length + 1 := by simp
      rw [← h1, List.take_length]
    rw [htake, decodeFields]
    have hvar : decodeVarint bs = .error () := by
      rw [decodeVarint]
      exact decodeVarintAux_allCont bs hcont 0 0 0
    simp [hvar]

/-- Witness for C8 at concrete inputs: a truncated payload and an
all-continuation-bytes varint body. -/
theorem decoder_no_throw_witness :
    decodePropertyMessage [0, 0, 0, 5, 1, 2] = none ∧
    decodePropertyMessage (toBEBytes 4 2 ++ 0 :: [128]) = none :=
  ⟨decoder_no_throw.1 [0, 0, 0, 5, 1, 2] (by decide) (by decide),
   by
    have h := decoder_no_throw.2 [128] (by decide) (by decide)
    simpa using h⟩

/-! ## JSON-like values

The dynamic Python values flowing through `json_loads` results, the cloud
snapshot and the device state: `None`, booleans, numbers (floats idealised as
`ℚ`), strings, lists and dicts. -/

inductive JVal : Type where
  | null
  | b (v : Bool)
  | num (q : ℚ)
  | str (s : String)
  | arr (xs : List JVal)
  | obj (fields : List (String × JVal))

/-- Python `isinstance(value, dict)`. -/
def JVal.isDict : JVal → Bool
  | .obj _ => true
  | _ => false

/-! ## Device state merge
(`custom_components/ecoflow/protobuf_handler.py`, `_merge_state`)

`for key, value in new_data.items(): if isinstance(value, dict) and key in
current and isinstance(current[key], dict): recurse else: current[key] = value`.
The in-place mutation is rendered functionally: the result is the updated
`current`. -/

def mergeState : List (String × JVal) → List (String × JVal) → List (String × JVal)
  | current, [] => current
  | current, (key, .obj nd) :: rest =>
    (match pyLookup current key with
      | some (.obj cd) => mergeState (pyDictSet current key (.obj (mergeState cd nd))) rest
      | _ => mergeState (pyDictSet current key (.obj nd)) rest)
  | current, (key, value) :: rest => mergeState (pyDictSet current key value) rest
termination_by _ new_data => sizeOf new_data
decreasing_by
  all_goals simp_wf
  all_goals omega

theorem mergeState_lookup_not_mem :
    ∀ (new cur : List (String × JVal)) (k : String),
      (∀ p ∈ new, p.1 ≠ k) → pyLookup (mergeState cur new) k = pyLookup cur k := by
  intro new
  induction new with
  | nil => intro cur k _; rw [mergeState]
  | cons p rest ih =>
    intro cur k h
    obtain ⟨key, value⟩ := p
    have hkey : key ≠ k := h (key, value) (by simp)
    have hrest : ∀ q ∈ rest, q.1 ≠ k := fun q hq => h q (by simp [hq])
    cases value with
    | obj nd =>
      rw [mergeState]
      rcases hc : pyLookup cur key with _ | w
      · simp only [hc]
        rw [ih _ _ hrest, pyLookup_dictSet_ne _ _ _ _ hkey]
      · cases w <;> simp only [hc] <;>
          rw [ih _ _ hrest, pyLookup_dictSet_ne _ _ _ _ hkey]
    | null =>
      rw [mergeState, ih _ _ hrest, pyLookup_dictSet_ne _ _ _ _ hkey]
      exact fun nd2 h2 => JVal.noConfusion h2
    | b v =>
      rw [mergeState, ih _ _ hrest, pyLookup_dictSet_ne _ _ _ _ hkey]
      exact fun nd2 h2 => JVal.noConfusion h2
    | num q =>
      rw [mergeState, ih _ _ hrest, pyLookup_dictSet_ne _ _ _ _ hkey]
      exact fun nd2 h2 => JVal.noConfusion h2
    | str s =>
      rw [mergeState, ih _ _ hrest, pyLookup_dictSet_ne _ _ _ _ hkey]
      exact fun nd2 h2 => JVal.noConfusion h2
    | arr xs =>
      rw [mergeState, ih _ _ hrest, pyLookup_dictSet_ne _ _ _ _ hkey]
      exact fun nd2 h2 => JVal.noConfusion h2

theorem pyLookup_eq_none_iff {κ α : Type} [DecidableEq κ]
    (d : List (κ × α)) (k : κ) :
    pyLookup d k = none ↔ ∀ p ∈ d, p.1 ≠ k := by
  induction d with
  | nil => simp [pyLookup]
  | cons hd tl ih =>
    obtain ⟨k1, v1⟩ := hd
    by_cases h1 : k1 = k
    · simp [pyLookup, h1]
    · simp [pyLookup, h1, ih]

theorem mergeState_deep (k : String) (cd nd : List (String × JVal)) :
    ∀ (new cur : List (String × JVal)),
      pyLookup cur k = some (.obj cd) → pyLookup new k = some (.obj nd) →
      (new.map Prod.fst).Nodup →
      pyLookup (mergeState cur new) k = some (.obj (mergeState cd nd)) := by
  intro new
  induction new with
  | nil => intro cur _ hnew _; simp [pyLookup] at hnew
  | cons p rest ih =>
    intro cur hcur hnew hnodup
    obtain ⟨key, value⟩ := p
    have hnd : (rest.map Prod.fst).Nodup := by
      simpa using hnodup.of_cons
    by_cases hk : key = k
    · subst hk
      have hval : value = .obj nd := by
        simp [pyLookup] at hnew
        exact hnew
      subst hval
      have hnotmem : ∀ q ∈ rest, q.1 ≠ key := by
        intro q hq
        simp only [List.map_cons, List.nodup_cons] at hnodup
        intro he
        exact hnodup.1 (he ▸ List.mem_map_of_mem Prod.fst hq)
      rw [mergeState]
      simp only [hcur]
      rw [mergeState_lookup_not_mem rest _ key hnotmem, pyLookup_dictSet_self]
    · have hrest : pyLookup rest k = some (.obj nd) := by
        simpa [pyLookup, hk] using hnew
      have hcur' : ∀ X : JVal, pyLookup (pyDictSet cur key X) k = some (.obj cd) := by
        intro X
        rw [pyLookup_dictSet_ne _ _ _ _ hk, hcur]
      cases value with
      | obj nd2 =>
        rw [mergeState]
        rcases hc : pyLookup cur key with _ | w
        · simp only [hc]
          exact ih _ (hcur' _) hrest hnd
        · cases w <;> simp only [hc] <;> exact ih _ (hcur' _) hrest hnd
      | null =>
        rw [mergeState]
        exact ih _ (hcur' _) hrest hnd
        exact fun nd2 h2 => JVal.noConfusion h2
      | b v =>
        rw [mergeState]
        exact ih _ (hcur' _) hrest hnd
        exact fun nd2 h2 => JVal.noConfusion h2
      | num q =>
        rw [mergeState]
        exact ih _ (hcur' _) hrest hnd
        exact fun nd2 h2 => JVal.noConfusion h2
      | str s =>
        rw [mergeState]
        exact ih _ (hcur' _) hrest hnd
        exact fun nd2 h2 => JVal.noConfusion h2
      | arr xs =>
        rw [mergeState]
        exact ih _ (hcur' _) hrest hnd
        exact fun nd2 h2 => JVal.noConfusion h2

theorem mergeState_scalar (k : String) (v : JVal) (hv : v.isDict = false) :
    ∀ (new cur : List (String × JVal)),
      pyLookup new k = some v → (new.map Prod.fst).Nodup →
      pyLookup (mergeState cur new) k = some v := by
  intro new
  induction new with
  | nil => intro cur hnew _; simp [pyLookup] at hnew
  | cons p rest ih =>
    intro cur hnew hnodup
    obtain ⟨key, value⟩ := p
    have hnd : (rest.map Prod.fst).Nodup := by
      simpa using hnodup.of_cons
    by_cases hk : key = k
    · subst hk
      have hval : value = v := by
        simp [pyLookup] at hnew
        exact hnew
      subst hval
      have hnotmem : ∀ q ∈ rest, q.1 ≠ key := by
        intro q hq
        simp only [List.map_cons, List.nodup_cons] at hnodup
        intro he
        exact hnodup.1 (he ▸ List.mem_map_of_mem Prod.fst hq)
      cases value with
      | obj nd => simp [JVal.isDict] at hv
      | null =>
        rw [mergeState, mergeState_lookup_not_mem rest _ key hnotmem, pyLookup_dictSet_self]
        exact fun nd2 h2 => JVal.noConfusion h2
      | b bv =>
        rw [mergeState, mergeState_lookup_not_mem rest _ key hnotmem, pyLookup_dictSet_self]
        exact fun nd2 h2 => JVal.noConfusion h2
      | num q =>
        rw [mergeState, mergeState_lookup_not_mem rest _ key hnotmem, pyLookup_dictSet_self]
        exact fun nd2 h2 => JVal.noConfusion h2
      | str s =>
        rw [mergeState, mergeState_lookup_not_mem rest _ key hnotmem, pyLookup_dictSet_self]
        exact fun nd2 h2 => JVal.noConfusion h2
      | arr xs =>
        rw [mergeState, mergeState_lookup_not_mem rest _ key hnotmem, pyLookup_dictSet_self]
        exact fun nd2 h2 => JVal.noConfusion h2
    · have hrest : pyLookup rest k = some v := by
        simpa [pyLookup, hk] using hnew
      cases value with
      | obj nd2 =>
        rw [mergeState]
        rcases hc : pyLookup cur key with _ | w
        · simp only [hc]
          exact ih _ hrest hnd
        · cases w <;> simp only [hc] <;> exact ih _ hrest hnd
      | null =>
        rw [mergeState]
        exact ih _ hrest hnd
        exact fun nd2 h2 => JVal.noConfusion h2
      | b bv =>
        rw [mergeState]
        exact ih _ hrest hnd
        exact fun nd2 h2 => JVal.noConfusion h2
      | num q =>
        rw [mergeState]
        exact ih _ hrest hnd
        exact fun nd2 h2 => JVal.noConfusion h2
      | str s =>
        rw [mergeState]
        exact ih _ hrest hnd
        exact fun nd2 h2 => JVal.noConfusion h2
      | arr xs =>
        rw [mergeState]
        exact ih _ hrest hnd
        exact fun nd2 h2 => JVal.noConfusion h2

/-- C4: `_merge_state` is a deep merge.  (i) When a key holds a nested mapping
in both the current state and the update, the merged state holds the recursive
merge of the two nested mappings; (ii) keys of the current state absent from
the update survive unchanged (in particular existing leaf keys of a nested
mapping absent from the nested update); (iii) a non-dict update value replaces
whatever the current state held at that key. -/
theorem merge_state_deep_spec :
    (∀ (cur new cd nd : List (String × JVal)) (k : String),
      pyLookup cur k = some (.obj cd) → pyLookup new k = some (.obj nd) →
      (new.map Prod.fst).Nodup →
      pyLookup (mergeState cur new) k = some (.obj (mergeState cd nd))) ∧
    (∀ (cd nd : List (String × JVal)) (k' : String) (w : JVal),
      pyLookup cd k' = some w → pyLookup nd k' = none →
      pyLookup (mergeState cd nd) k' = some w) ∧
    (∀ (cur new : List (String × JVal)) (k : String) (v : JVal),
      v.isDict = false → pyLookup new k = some v → (new.map Prod.fst).Nodup →
      pyLookup (mergeState cur new) k = some v) := by
  refine ⟨fun cur new cd nd k hc hn hd => mergeState_deep k cd nd new cur hc hn hd,
    fun cd nd k' w hc hn => ?_,
    fun cur new k v hv hn hd => mergeState_scalar k v hv new cur hn hd⟩
  rw [mergeState_lookup_not_mem nd cd k' ((pyLookup_eq_none_iff nd k').mp hn)]
  exact hc

/-- Witness for C4: merging `{"a": {"x": 5}}` into `{"a": {"x": 1, "y": 2}}`
deep-merges under `"a"` and the untouched leaf `"y"` survives; merging the
scalar `{"a": 7}` over the same state replaces the nested dict wholesale. -/
theorem merge_state_deep_spec_witness :
    pyLookup (mergeState [("a", .obj [("x", .num 1), ("y", .num 2)])]
        [("a", .obj [("x", .num 5)])]) "a" =
      some (.obj (mergeState [("x", .num 1), ("y", .num 2)] [("x", .num 5)])) ∧
    pyLookup (mergeState [("x", .num 1), ("y", .num 2)] [("x", .num 5)]) "y" =
      some (.num 2) ∧
    pyLookup (mergeState [("a", .obj [("x", .num 1), ("y", .num 2)])]
        [("a", .num 7)]) "a" = some (.num 7) :=
  ⟨merge_state_deep_spec.1 _ _ _ _ "a" rfl rfl (by decide),
   merge_state_deep_spec.2.1 _ _ "y" (.num 2) rfl rfl,
   merge_state_deep_spec.2.2 _ _ "a" (.num 7) rfl rfl (by decide)⟩

/-! ## Snapshot Normalizer
(`custom_components/ecoflow/ecoflow.py`, class `Ecoflow`)

`__get_sens_select` reads the per-report allow-lists from the repository data
file `custom_components/powerocean/datapoints.json`; that file is data, not
code, so the allow-list mapping is a parameter `sensSelect` of every
normalizer function.  `json_loads` (from `homeassistant.util.json`) is an
external library call; battery sub-documents are strings parsed through a
parameter `jloads`, an `Except`-valued model of it.  A raised Python exception
(`KeyError`, `TypeError`, `ZeroDivisionError`, ...) is an `Except.error`;
`_get_sensors` has no handler, so errors propagate out of it. -/

inductive PyErr : Type where
  | keyError
  | typeError
  | zeroDivisionError
  | indexError
  | nameError
deriving DecidableEq, Repr

/-- Python `d[k]` on a dict: `KeyError` when absent. -/
def pyGetItem (d : List (String × JVal)) (k : String) : Except PyErr JVal :=
  match pyLookup d k with
  | some v => .ok v
  | none => .error .keyError

/-- Using a value as a dict (`.items()`, `[k]`): `TypeError` otherwise. -/
def JVal.asObj : JVal → Except PyErr (List (String × JVal))
  | .obj fields => .ok fields
  | _ => .error .typeError

/-- Using a value as a list (`[i]`, `len`): `TypeError` otherwise. -/
def JVal.asArr : JVal → Except PyErr (List JVal)
  | .arr xs => .ok xs
  | _ => .error .typeError

/-- Using a value as a string (argument of `json_loads`). -/
def JVal.asStr : JVal → Except PyErr String
  | .str s => .ok s
  | _ => .error .typeError

/-- `sum(...)` over a JSON array of numbers; any non-numeric element raises. -/
def collectNums : List JVal → Except PyErr (List ℚ)
  | [] => .ok []
  | .num q :: rest => do
    let t ← collectNums rest
    .ok (q :: t)
  | _ :: _ => .error .typeError

def JVal.asNumList : JVal → Except PyErr (List ℚ)
  | .arr xs => collectNums xs
  | _ => .error .typeError

/-- Python substring containment (`needle in haystack`). -/
def listContainsSub (hay needle : List Char) : Bool :=
  (List.range (hay.length + 1)).any fun i => needle.isPrefixOf (hay.drop i)

def strContainsSub (hay needle : String) : Bool :=
  listContainsSub hay.data needle.data

/-- `str.startswith` over the character lists (kernel-computable). -/
def strStartsWith (s pre : String) : Bool :=
  pre.data.isPrefixOf s.data

/-- `str.endswith` over the character lists (kernel-computable). -/
def strEndsWith (s suf : String) : Bool :=
  suf.data.reverse.isPrefixOf s.data.reverse

/-- `PowerOceanEndPoint` namedtuple. -/
structure EndPoint : Type where
  internal_unique_id : String
  serial : String
  name : String
  friendly_name : String
  value : JVal
  unit : Option String
  description : String
  icon : Option String

/-- `Ecoflow.__get_unit`. -/
def getUnit (key : String) : Option String :=
  if strEndsWith key "pwr" || strEndsWith key "Pwr" || strEndsWith key "Power" then some "W"
  else if strEndsWith key "amp" || strEndsWith key "Amp" then some "A"
  else if strEndsWith key "soc" || strEndsWith key "Soc" || strEndsWith key "soh" ||
      strEndsWith key "Soh" then some "%"
  else if strEndsWith key "vol" || strEndsWith key "Vol" then some "V"
  else if strEndsWith key "Watth" || strEndsWith key "Energy" then some "Wh"
  else if strContainsSub key "Generation" then some "kWh"
  else if strStartsWith key "bpTemp" then some "°C"
  else none

/-- `Ecoflow.__get_description` (sequence of `if key == ...` over distinct
keys, i.e. a chained lookup with the key itself as default). -/
def getDescription (key : String) : String :=
  if key = "sysLoadPwr" then "Hausnetz"
  else if key = "sysGridPwr" then "Stromnetz"
  else if key = "mpptPwr" then "Solarertrag"
  else if key = "bpPwr" then "Batterieleistung"
  else if key = "bpSoc" then "Ladezustand der Batterie"
  else if key = "online" then "Online"
  else if key = "systemName" then "System Name"
  else if key = "createTime" then "Installations Datum"
  else if key = "bpVol" then "Batteriespannung"
  else if key = "bpAmp" then "Batteriestrom"
  else if key = "bpCycles" then "Ladezyklen"
  else if key = "bpTemp" then "Temperatur der Batteriezellen"
  else key

/-- `dict.update(sensors, data)`: set every pair of `data` into `sensors` in
order. -/
def dictUpdate (sensors data : List (String × EndPoint)) : List (String × EndPoint) :=
  data.foldl (fun acc kv => pyDictSet acc kv.1 kv.2) sensors

/-- The loop of `Ecoflow.__get_sensors_data`: surface non-dict values of
allow-listed top-level keys. -/
def dataItems (sn : String) (sens : List String) :
    List (String × JVal) → List (String × EndPoint) → List (String × EndPoint)
  | [], sensors => sensors
  | (key, value) :: rest, sensors =>
    dataItems sn sens rest
      (if key ∈ sens ∧ value.isDict = false then
        let uid := sn ++ "_" ++ key
        let icon :=
          if key = "mpptPwr" then some "mdi:solar-power"
          else if key = "online" then some "mdi:cloud-check"
          else if key = "sysGridPwr" then some "mdi:transmission-tower-import"
          else if key = "sysLoadPwr" then some "mdi:home-import-outline"
          else none
        pyDictSet sensors uid
          ⟨uid, sn, sn ++ "_" ++ key, key, value, getUnit key, getDescription key, icon⟩
      else sensors)

/-- `Ecoflow.__get_sensors_data`. -/
def getSensorsData (sensSelect : String → List String) (sn : String)
    (response : JVal) : Except PyErr (List (String × EndPoint)) := do
  let respObj ← response.asObj
  let d ← (← pyGetItem respObj "data").asObj
  .ok (dataItems sn (sensSelect "data") d [])

/-- `response["data"]["quota"][report]` chain shared by all report readers. -/
def getReport (response : JVal) (report : String) :
    Except PyErr (List (String × JVal)) := do
  let respObj ← response.asObj
  let d ← (← pyGetItem respObj "data").asObj
  let quota ← (← pyGetItem d "quota").asObj
  (← pyGetItem quota report).asObj

/-- The loop of `Ecoflow.__get_sensors_energy_stream`. -/
def energyStreamItems (sn report : String) (sens : List String) :
    List (String × JVal) → List (String × EndPoint) → List (String × EndPoint)
  | [], data => data
  | (key, value) :: rest, data =>
    energyStreamItems sn report sens rest
      (if key ∈ sens then
        let uid := sn ++ "_" ++ report ++ "_" ++ key
        let icon :=
          if strStartsWith key "pv1" || strStartsWith key "pv2" then some "mdi:solar-power"
          else none
        pyDictSet data uid
          ⟨uid, sn, sn ++ "_" ++ key, key, value, getUnit key, getDescription key, icon⟩
      else data)

/-- `Ecoflow.__get_sensors_energy_stream`. -/
def getSensorsEnergyStream (sensSelect : String → List String) (sn : String)
    (response : JVal) (sensors : List (String × EndPoint)) :
    Except PyErr (List (String × EndPoint)) := do
  let report := "JTS1_ENERGY_STREAM_REPORT"
  let d ← getReport response report
  let data := energyStreamItems sn report (sensSelect report) d []
  .ok (dictUpdate sensors data)

/-- `re.match("mppt.*Code", key)`: the pattern must match at the START of the
key — `mppt` as a prefix, then `Code` somewhere later on the same line
(`.` does not cross a newline). -/
def mpptCodeMatch (key : String) : Bool :=
  strStartsWith key "mppt" &&
    listContainsSub ((key.data.drop 4).takeWhile (fun c => c != Char.ofNat 10))
      ("Code".data)

/-- The loop of `Ecoflow.__get_sensors_ems_change`. -/
def emsChangeItems (sn report : String) (sens : List String) :
    List (String × JVal) → List (String × EndPoint) → List (String × EndPoint)
  | [], data => data
  | (key, value) :: rest, data =>
    emsChangeItems sn report sens rest
      (if key ∈ sens then
        let uid := sn ++ "_" ++ report ++ "_" ++ key
        pyDictSet data uid
          ⟨uid, sn, sn ++ "_" ++ key, key, value, getUnit key, getDescription key, none⟩
      else data)

/-- `Ecoflow.__get_sensors_ems_change`: the effective allow-list is the static
list plus the keys matched by `re.match("mppt.*Code", ...)`. -/
def getSensorsEmsChange (sensSelect : String → List String) (sn : String)
    (response : JVal) (sensors : List (String × EndPoint)) :
    Except PyErr (List (String × EndPoint)) := do
  let report := "JTS1_EMS_CHANGE_REPORT"
  let d ← getReport response report
  let wfc := (d.map Prod.fst).filter mpptCodeMatch
  let sens := sensSelect report ++ wfc
  let data := emsChangeItems sn report sens d []
  .ok (dictUpdate sensors data)

/-- The per-battery field loop of `Ecoflow.__get_sensors_battery`. -/
def batteryItems (sn report bat bname : String) (sens : List String) :
    List (String × JVal) → List (String × EndPoint) → List (String × EndPoint)
  | [], data => data
  | (key, value) :: rest, data =>
    batteryItems sn report bat bname sens rest
      (if key ∈ sens then
        let uid := sn ++ "_" ++ report ++ "_" ++ bat ++ "_" ++ key
        let icon := if key = "bpAmp" then some "mdi:current-dc" else none
        pyDictSet data uid
          ⟨uid, sn, sn ++ "_" ++ (bname ++ key), bname ++ key, value, getUnit key,
            bname ++ getDescription key, icon⟩
      else data)

/-- The battery loop of `Ecoflow.__get_sensors_battery`: per battery, parse the
encoded sub-document, surface allow-listed fields with the pack-numbered
description prefix, then synthesize the mean cell temperature. -/
def batteryLoop (jloads : String → Except PyErr JVal) (sn report : String)
    (sens : List String) (d : List (String × JVal)) :
    List String → ℕ → List (String × EndPoint) →
    Except PyErr (List (String × EndPoint))
  | [], _, data => .ok data
  | bat :: rest, ibat, data => do
    let bname := "bpack" ++ toString (ibat + 1) ++ "_"
    let dBat ← (← jloads (← (← pyGetItem d bat).asStr)).asObj
    let data := batteryItems sn report bat bname sens dBat data
    let temps ← (← pyGetItem dBat "bpTemp").asNumList
    if temps.length = 0 then .error .zeroDivisionError
    else
      let value : ℚ := temps.sum / (temps.length : ℚ)
      let key := "bpTemp"
      let uid := sn ++ "_" ++ report ++ "_" ++ bat ++ "_" ++ key
      let data := pyDictSet data uid
        ⟨uid, sn, sn ++ "_" ++ (bname ++ key), bname ++ key, .num value, getUnit key,
          bname ++ getDescription key, none⟩
      batteryLoop jloads sn report sens d rest (ibat + 1) data

/-- `Ecoflow.__get_sensors_battery`: records with keys longer than 12
characters are battery packs. -/
def getSensorsBattery (sensSelect : String → List String)
    (jloads : String → Except PyErr JVal) (sn : String) (response : JVal)
    (sensors : List (String × EndPoint)) :
    Except PyErr (List (String × EndPoint)) := do
  let report := "JTS1_BP_STA_REPORT"
  let d ← getReport response report
  let batts := (d.map Prod.fst).filter (fun s2 => 12 < s2.length)
  let data ← batteryLoop jloads sn report (sensSelect report) d batts 0 []
  .ok (dictUpdate sensors data)

/-- Top-level item loop of `Ecoflow.__get_sensors_ems_heartbeat`; the loop
variable `key` leaks out of the loop, so the last visited key is threaded. -/
def heartbeatItems (sn report : String) (sens : List String) :
    List (String × JVal) → List (String × EndPoint) × Option String →
    List (String × EndPoint) × Option String
  | [], st => st
  | (key, value) :: rest, (data, _) =>
    heartbeatItems sn report sens rest
      (if key ∈ sens then
        let uid := sn ++ "_" ++ report ++ "_" ++ key
        pyDictSet data uid
          ⟨uid, sn, sn ++ "_" ++ key, key, value, getUnit key, getDescription key, none⟩
      else data, some key)

/-- Inner loop over one phase dict (`d[phase].items()`). -/
def phaseItems (sn report phase : String) :
    List (String × JVal) → List (String × EndPoint) × Option String →
    List (String × EndPoint) × Option String
  | [], st => st
  | (key, value) :: rest, (data, _) =>
    phaseItems sn report phase rest
      (let pname := phase ++ "_" ++ key
       let uid := sn ++ "_" ++ report ++ "_" ++ pname
       pyDictSet data uid
        ⟨uid, sn, sn ++ "_" ++ pname, pname, value, getUnit key, getDescription key,
          none⟩, some key)

/-- One phase: `d[phase]` (KeyError when absent) then its item loop. -/
def phaseOne (sn report : String) (d : List (String × JVal)) (phase : String)
    (st : List (String × EndPoint) × Option String) :
    Except PyErr (List (String × EndPoint) × Option String) := do
  let dp ← (← pyGetItem d phase).asObj
  .ok (phaseItems sn report phase dp st)

/-- The `if phases[1] in d` block: flatten the three fixed phase objects. -/
def heartbeatPhases (sn report : String) (d : List (String × JVal))
    (st : List (String × EndPoint) × Option String) :
    Except PyErr (List (String × EndPoint) × Option String) :=
  if (pyLookup d "pcsBPhase").isSome then do
    let st1 ← phaseOne sn report d "pcsAPhase" st
    let st2 ← phaseOne sn report d "pcsBPhase" st1
    phaseOne sn report d "pcsCPhase" st2
  else .ok st

/-- Items of one PV string object; accumulates the running power sum
(`if key == "pwr": mpptPv_sum += value`, a `TypeError` on non-numbers). -/
def mpptStringItems (sn report mpptpv : String) :
    List (String × JVal) → List (String × EndPoint) × Option String × ℚ →
    Except PyErr (List (String × EndPoint) × Option String × ℚ)
  | [], st => .ok st
  | (key, value) :: rest, (data, _, acc) => do
    let uid := sn ++ "_" ++ report ++ "_mpptHeartBeat_" ++ mpptpv ++ "_" ++ key
    let icon :=
      if strEndsWith key "amp" then some "mdi:current-dc"
      else if strEndsWith key "pwr" then some "mdi:solar-power"
      else none
    let data := pyDictSet data uid
      ⟨uid, sn, sn ++ "_" ++ mpptpv ++ "_" ++ key, mpptpv ++ "_" ++ key, value,
        getUnit key, getDescription key, icon⟩
    let acc ←
      if key = "pwr" then
        match value with
        | .num q => .ok (acc + q)
        | _ => .error .typeError
      else .ok acc
    mpptStringItems sn report mpptpv rest (data, some key, acc)

/-- Loop over the PV string objects, numbering them `mpptPv1`, `mpptPv2`, ... -/
def mpptStrings (sn report : String) :
    List JVal → ℕ → List (String × EndPoint) × Option String × ℚ →
    Except PyErr (List (String × EndPoint) × Option String × ℚ)
  | [], _, st => .ok st
  | elem :: rest, i, st => do
    let eo ← elem.asObj
    let st1 ← mpptStringItems sn report ("mpptPv" ++ toString i) eo st
    mpptStrings sn report rest (i + 1) st1

/-- `Ecoflow.__get_sensors_ems_heartbeat`. -/
def getSensorsEmsHeartbeat (sensSelect : String → List String) (sn : String)
    (response : JVal) (sensors : List (String × EndPoint)) :
    Except PyErr (List (String × EndPoint)) := do
  let report := "JTS1_EMS_HEARTBEAT"
  let d ← getReport response report
  let st0 := heartbeatItems sn report (sensSelect report) d ([], none)
  let st1 ← heartbeatPhases sn report d st0
  if (pyLookup d "mpptHeartBeat").isSome then do
    let mhb ← (← pyGetItem d "mpptHeartBeat").asArr
    let first ← match mhb with
      | [] => .error .indexError
      | x :: _ => .ok x
    let mpptPv ← (← pyGetItem (← first.asObj) "mpptPv").asArr
    let (data2, lk2, total) ← mpptStrings sn report mpptPv 1 (st1.1, st1.2, 0)
    let lkey ← match lk2 with
      | some k2 => .ok k2
      | none => .error .nameError
    let tname := "mpptPv_pwrTotal"
    let uid := sn ++ "_" ++ report ++ "_mpptHeartBeat_" ++ tname
    let data3 := pyDictSet data2 uid
      ⟨uid, sn, sn ++ "_" ++ tname, tname, .num total, getUnit lkey,
        "Solarertrag aller Strings", some "mdi:solar-power"⟩
    .ok (dictUpdate sensors data3)
  else .ok (dictUpdate sensors st1.1)

/-- `Ecoflow._get_sensors`: the five report passes in order; no handler, every
raised exception propagates. -/
def getSensors (sensSelect : String → List String)
    (jloads : String → Except PyErr JVal) (sn : String) (response : JVal) :
    Except PyErr (List (String × EndPoint)) := do
  let s1 ← getSensorsData sensSelect sn response
  let s2 ← getSensorsEnergyStream sensSelect sn response s1
  let s3 ← getSensorsEmsChange sensSelect sn response s2
  let s4 ← getSensorsBattery sensSelect jloads sn response s3
  getSensorsEmsHeartbeat sensSelect sn response s4

theorem collectNums_map_num (t : List ℚ) : collectNums (t.map JVal.num) = .ok t := by
  induction t with
  | nil => rfl
  | cons q rest ih => simp [collectNums, ih, Bind.bind, Except.bind]

/-- C5: battery-status normalization on a two-pack report with allow-list
`["bpSoc"]`: each pack yields one DataPoint per allow-listed field carrying the
pack-numbered description prefix (`bpack1_`, `bpack2_`), plus one aggregated
temperature DataPoint per pack whose value is the arithmetic mean of that
pack's `bpTemp` array. -/
theorem battery_pack_points (sensSelect : String → List String)
    (jloads : String → Except PyErr JVal) (t1 t2 : List ℚ) (s1 s2 : ℚ)
    (hsens : sensSelect "JTS1_BP_STA_REPORT" = ["bpSoc"])
    (hj1 : jloads "doc1" = .ok (.obj [("bpSoc", .num s1), ("bpTemp", .arr (t1.map JVal.num))]))
    (hj2 : jloads "doc2" = .ok (.obj [("bpSoc", .num s2), ("bpTemp", .arr (t2.map JVal.num))]))
    (ht1 : t1 ≠ []) (ht2 : t2 ≠ []) :
    (getSensorsBattery sensSelect jloads "SN1"
      (.obj [("data", .obj [("quota", .obj [("JTS1_BP_STA_REPORT",
        .obj [("BATTPACKSERIAL01", .str "doc1"), ("BATTPACKSERIAL02", .str "doc2")])])])])
      []).map (fun d =>
        ((pyLookup d "SN1_JTS1_BP_STA_REPORT_BATTPACKSERIAL01_bpSoc").map
          (fun e => (e.value, e.description)),
         (pyLookup d "SN1_JTS1_BP_STA_REPORT_BATTPACKSERIAL02_bpSoc").map
          (fun e => (e.value, e.description)),
         (pyLookup d "SN1_JTS1_BP_STA_REPORT_BATTPACKSERIAL01_bpTemp").map
          (fun e => (e.value, e.description, e.unit)),
         (pyLookup d "SN1_JTS1_BP_STA_REPORT_BATTPACKSERIAL02_bpTemp").map
          (fun e => (e.value, e.description, e.unit)))) =
      .ok (some (.num s1, "bpack1_" ++ getDescription "bpSoc"),
           some (.num s2, "bpack2_" ++ getDescription "bpSoc"),
           some (.num (t1.sum / (t1.length : ℚ)), "bpack1_" ++ getDescription "bpTemp", getUnit "bpTemp"),
           some (.num (t2.sum / (t2.length : ℚ)), "bpack2_" ++ getDescription "bpTemp", getUnit "bpTemp")) := by
  have hlen1 : ¬ (t1.length = 0) := by simpa [List.length_eq_zero] using ht1
  have hlen2 : ¬ (t2.length = 0) := by simpa [List.length_eq_zero] using ht2
  simp [getSensorsBattery, getReport, pyGetItem, pyLookup, JVal.asObj, JVal.asStr,
    JVal.asNumList, batteryLoop, batteryItems, hsens, hj1, hj2, collectNums_map_num,
    dictUpdate, pyDictSet, hlen1, hlen2, Bind.bind, Except.bind, Pure.pure, Except.pure]
  rfl

/-- Witness for C5: the spec scenario — two packs, both with `bpTemp`
`[20, 22, 24]`, yield one aggregated temperature DataPoint per pack with value
`22` (and unit `°C`), next to the pack-prefixed `bpSoc` points. -/
theorem battery_pack_points_witness :
    (getSensorsBattery (fun _ => ["bpSoc"])
      (fun s2 => if s2 = "doc1" then
          .ok (.obj [("bpSoc", .num 95), ("bpTemp", .arr ([20, 22, 24].map JVal.num))])
        else if s2 = "doc2" then
          .ok (.obj [("bpSoc", .num 96), ("bpTemp", .arr ([20, 22, 24].map JVal.num))])
        else .error .typeError)
      "SN1"
      (.obj [("data", .obj [("quota", .obj [("JTS1_BP_STA_REPORT",
        .obj [("BATTPACKSERIAL01", .str "doc1"), ("BATTPACKSERIAL02", .str "doc2")])])])])
      []).map (fun d =>
        ((pyLookup d "SN1_JTS1_BP_STA_REPORT_BATTPACKSERIAL01_bpSoc").map
          (fun e => (e.value, e.description)),
         (pyLookup d "SN1_JTS1_BP_STA_REPORT_BATTPACKSERIAL02_bpSoc").map
          (fun e => (e.value, e.description)),
         (pyLookup d "SN1_JTS1_BP_STA_REPORT_BATTPACKSERIAL01_bpTemp").map
          (fun e => (e.value, e.description, e.unit)),
         (pyLookup d "SN1_JTS1_BP_STA_REPORT_BATTPACKSERIAL02_bpTemp").map
          (fun e => (e.value, e.description, e.unit)))) =
      .ok (some (.num 95, "bpack1_" ++ getDescription "bpSoc"),
           some (.num 96, "bpack2_" ++ getDescription "bpSoc"),
           some (.num 22, "bpack1_" ++ getDescription "bpTemp", getUnit "bpTemp"),
           some (.num 22, "bpack2_" ++ getDescription "bpTemp", getUnit "bpTemp")) := by
  have h := battery_pack_points (fun _ => ["bpSoc"])
    (fun s2 => if s2 = "doc1" then
        .ok (.obj [("bpSoc", .num 95), ("bpTemp", .arr ([20, 22, 24].map JVal.num))])
      else if s2 = "doc2" then
        .ok (.obj [("bpSoc", .num 96), ("bpTemp", .arr ([20, 22, 24].map JVal.num))])
      else .error .typeError)
    [20, 22, 24] [20, 22, 24] 95 96 rfl rfl rfl (by decide) (by decide)
  norm_num at h
  exact h

/-- C6: heartbeat normalization on a three-string PV report: one DataPoint per
string per field, and one synthetic total-power DataPoint whose value is the
sum of the strings' `pwr` fields. -/
theorem heartbeat_pv_total (sensSelect : String → List String) (p1 p2 p3 : ℚ)
    (hsens : sensSelect "JTS1_EMS_HEARTBEAT" = []) :
    (getSensorsEmsHeartbeat sensSelect "SN1"
      (.obj [("data", .obj [("quota", .obj [("JTS1_EMS_HEARTBEAT",
        .obj [("mpptHeartBeat", .arr [.obj [("mpptPv",
          .arr [.obj [("pwr", .num p1)], .obj [("pwr", .num p2)],
            .obj [("pwr", .num p3)]])]])])])])])
      []).map (fun d =>
        ((pyLookup d "SN1_JTS1_EMS_HEARTBEAT_mpptHeartBeat_mpptPv1_pwr").map
          (fun e => (e.value, e.icon)),
         (pyLookup d "SN1_JTS1_EMS_HEARTBEAT_mpptHeartBeat_mpptPv2_pwr").map
          (fun e => (e.value, e.icon)),
         (pyLookup d "SN1_JTS1_EMS_HEARTBEAT_mpptHeartBeat_mpptPv3_pwr").map
          (fun e => (e.value, e.icon)),
         (pyLookup d "SN1_JTS1_EMS_HEARTBEAT_mpptHeartBeat_mpptPv_pwrTotal").map
          (fun e => (e.value, e.unit, e.description, e.icon)))) =
      .ok (some (.num p1, some "mdi:solar-power"),
           some (.num p2, some "mdi:solar-power"),
           some (.num p3, some "mdi:solar-power"),
           some (.num (p1 + p2 + p3), some "W", "Solarertrag aller Strings",
             some "mdi:solar-power")) := by
  simp [getSensorsEmsHeartbeat, getReport, pyGetItem, pyLookup, JVal.asObj, JVal.asArr,
    heartbeatItems, heartbeatPhases, phaseOne, phaseItems, mpptStrings, mpptStringItems,
    hsens, dictUpdate, pyDictSet, Bind.bind, Except.bind, Pure.pure, Except.pure]
  rfl

/-- Witness for C6: the spec scenario — `pwr` values `100, 150, 50` yield the
per-string points plus one total point with value `300`. -/
theorem heartbeat_pv_total_witness :
    (getSensorsEmsHeartbeat (fun _ => []) "SN1"
      (.obj [("data", .obj [("quota", .obj [("JTS1_EMS_HEARTBEAT",
        .obj [("mpptHeartBeat", .arr [.obj [("mpptPv",
          .arr [.obj [("pwr", .num 100)], .obj [("pwr", .num 150)],
            .obj [("pwr", .num 50)]])]])])])])])
      []).map (fun d =>
        ((pyLookup d "SN1_JTS1_EMS_HEARTBEAT_mpptHeartBeat_mpptPv1_pwr").map
          (fun e => (e.value, e.icon)),
         (pyLookup d "SN1_JTS1_EMS_HEARTBEAT_mpptHeartBeat_mpptPv2_pwr").map
          (fun e => (e.value, e.icon)),
         (pyLookup d "SN1_JTS1_EMS_HEARTBEAT_mpptHeartBeat_mpptPv3_pwr").map
          (fun e => (e.value, e.icon)),
         (pyLookup d "SN1_JTS1_EMS_HEARTBEAT_mpptHeartBeat_mpptPv_pwrTotal").map
          (fun e => (e.value, e.unit, e.description, e.icon)))) =
      .ok (some (.num 100, some "mdi:solar-power"),
           some (.num 150, some "mdi:solar-power"),
           some (.num 50, some "mdi:solar-power"),
           some (.num 300, some "W", "Solarertrag aller Strings",
             some "mdi:solar-power")) := by
  have h := heartbeat_pv_total (fun _ => []) 100 150 50 rfl
  norm_num at h
  exact h

/-- C1 (amended): a missing report key under `data.quota` raises `KeyError` —
`_get_sensors` aborts instead of returning a best-effort collection.  When the
energy-stream report key is absent (in particular for an empty `quota`), the
whole normalization returns the error. -/
theorem missing_report_raises (sensSelect : String → List String)
    (jloads : String → Except PyErr JVal) (sn : String)
    (respFields dataFields quotaFields : List (String × JVal))
    (hdata : pyLookup respFields "data" = some (.obj dataFields))
    (hquota : pyLookup dataFields "quota" = some (.obj quotaFields))
    (hmiss : pyLookup quotaFields "JTS1_ENERGY_STREAM_REPORT" = none) :
    getSensors sensSelect jloads sn (.obj respFields) = .error .keyError := by
  simp [getSensors, getSensorsData, getSensorsEnergyStream, getReport, pyGetItem,
    JVal.asObj, hdata, hquota, hmiss, Bind.bind, Except.bind, Pure.pure, Except.pure]

/-- Counterexample to C1 as stated: on a snapshot whose `quota` is completely
empty, the top-level report would yield a data point (`getSensorsData`
succeeds), but `_get_sensors` raises `KeyError` instead of returning it. -/
theorem missing_report_raises_counterexample :
    getSensorsData (fun _ => ["sysLoadPwr"]) "SN1"
        (.obj [("data", .obj [("sysLoadPwr", .num 100), ("quota", .obj [])])]) =
      .ok [("SN1_sysLoadPwr",
        ⟨"SN1_sysLoadPwr", "SN1", "SN1_sysLoadPwr", "sysLoadPwr", .num 100,
          getUnit "sysLoadPwr", getDescription "sysLoadPwr",
          some "mdi:home-import-outline"⟩)] ∧
    getSensors (fun _ => ["sysLoadPwr"]) (fun _ => .error .typeError) "SN1"
        (.obj [("data", .obj [("sysLoadPwr", .num 100), ("quota", .obj [])])]) =
      .error .keyError :=
  ⟨rfl, rfl⟩

/-- Witness for C1 (amended) at a concrete snapshot with an empty quota. -/
theorem missing_report_raises_witness :
    getSensors (fun _ => []) (fun _ => .error .typeError) "SN1"
        (.obj [("data", .obj [("quota", .obj [])])]) = .error .keyError :=
  missing_report_raises (fun _ => []) (fun _ => .error .typeError) "SN1"
    [("data", .obj [("quota", .obj [])])] [("quota", .obj [])] [] rfl rfl rfl

/-- C7 (amended): in the change-event report the effective allow-list is the
static allow-list plus every key `re.match`-ed by `mppt.*Code` — i.e. keys
that START with `mppt` and contain `Code` later; exactly those fields are
surfaced. -/
theorem ems_change_dynamic_allowlist (sensSelect : String → List String)
    (k : String) (v : JVal) :
    (getSensorsEmsChange sensSelect "SN1"
      (.obj [("data", .obj [("quota", .obj [("JTS1_EMS_CHANGE_REPORT",
        .obj [(k, v)])])])])
      []).map (fun d => pyLookup d ("SN1_JTS1_EMS_CHANGE_REPORT_" ++ k)) =
    .ok (if k ∈ sensSelect "JTS1_EMS_CHANGE_REPORT" ∨ mpptCodeMatch k = true then
      some ⟨"SN1_JTS1_EMS_CHANGE_REPORT_" ++ k, "SN1", "SN1_" ++ k, k, v,
        getUnit k, getDescription k, none⟩
      else none) := by
  by_cases hmem : k ∈ sensSelect "JTS1_EMS_CHANGE_REPORT" <;>
    by_cases hma : mpptCodeMatch k = true <;>
      simp [getSensorsEmsChange, getReport, pyGetItem, pyLookup, JVal.asObj,
        emsChangeItems, dictUpdate, pyDictSet, hmem, hma, Bind.bind, Except.bind,
        Pure.pure, Except.pure, List.filter, Except.map]

/-- Counterexample to C7 as stated: `"xmpptCode"` contains the MPPT substring
followed by `Code`, yet (with an empty static allow-list) the change-event
normalizer surfaces nothing for it, because `re.match` anchors the pattern at
the start of the key. -/
theorem ems_change_dynamic_allowlist_counterexample :
    "xmpptCode" = "x" ++ "mppt" ++ "Code" ∧
    (getSensorsEmsChange (fun _ => []) "SN1"
      (.obj [("data", .obj [("quota", .obj [("JTS1_EMS_CHANGE_REPORT",
        .obj [("xmpptCode", .num 1)])])])])
      []).map (fun d => pyLookup d "SN1_JTS1_EMS_CHANGE_REPORT_xmpptCode") =
      .ok none :=
  ⟨rfl, rfl⟩

/-- Witness for C7 (amended): `"mpptFaultCode"` matches the dynamic pattern and
is surfaced even with an empty static allow-list; `"otherKey"` is dropped. -/
theorem ems_change_dynamic_allowlist_witness :
    (getSensorsEmsChange (fun _ => []) "SN1"
      (.obj [("data", .obj [("quota", .obj [("JTS1_EMS_CHANGE_REPORT",
        .obj [("mpptFaultCode", .num 3)])])])])
      []).map (fun d => pyLookup d ("SN1_JTS1_EMS_CHANGE_REPORT_" ++ "mpptFaultCode")) =
      .ok (some ⟨"SN1_JTS1_EMS_CHANGE_REPORT_" ++ "mpptFaultCode", "SN1",
        "SN1_" ++ "mpptFaultCode", "mpptFaultCode", .num 3,
        getUnit "mpptFaultCode", getDescription "mpptFaultCode", none⟩) ∧
    (getSensorsEmsChange (fun _ => []) "SN1"
      (.obj [("data", .obj [("quota", .obj [("JTS1_EMS_CHANGE_REPORT",
        .obj [("otherKey", .num 4)])])])])
      []).map (fun d => pyLookup d ("SN1_JTS1_EMS_CHANGE_REPORT_" ++ "otherKey")) =
      .ok none := by
  constructor
  · have h := ems_change_dynamic_allowlist (fun _ => []) "mpptFaultCode" (.num 3)
    simpa using h
  · have h := ems_change_dynamic_allowlist (fun _ => []) "otherKey" (.num 4)
    simpa using h

/-! ## Stream session manager
(`custom_components/ecoflow/mqtt_client.py`, class `PowerOceanMqttClient`,
topic formats from `const.py`)

The client state carries the `mqtt_client` handle flag, the `connected` flag
and the `subscribed_topics` set (a Python set, modelled as a duplicate-free
insertion list).  The broker's `subscribe` results are an oracle parameter
`brokerOk`.  The queue worker's per-message processing is `workerProcess`;
`json.loads` is external, so its outcome is the `Option JVal` parameter
(`none` = `JSONDecodeError`). -/

def statusTopic (sn : String) : String := "thingspro/device/" ++ sn ++ "/status"

def propertyTopic (sn : String) : String := "thingspro/device/" ++ sn ++ "/properties"

def setResultTopic (sn : String) : String := "thingspro/device/" ++ sn ++ "/property/set/result"

structure ClientState : Type where
  hasClient : Bool
  connected : Bool
  subscribedTopics : List String

/-- Python `set.add`. -/
def setAdd (s : List String) (t : String) : List String :=
  if t ∈ s then s else t :: s

/-- `PowerOceanMqttClient.async_subscribe_to_device`: the returned triple is
(result, next state, topics passed to `mqtt_client.subscribe`). -/
def subscribeToDevice (brokerOk : String → Bool) (st : ClientState) (sn : String) :
    Bool × ClientState × List String :=
  if st.connected = false then (false, st, [])
  else
    let t1 := statusTopic sn
    let t2 := propertyTopic sn
    let t3 := setResultTopic sn
    if t1 ∈ st.subscribedTopics then (true, st, [])
    else if brokerOk t1 && brokerOk t2 && brokerOk t3 then
      (true,
        { st with subscribedTopics := setAdd (setAdd (setAdd st.subscribedTopics t1) t2) t3 },
        [t1, t2, t3])
    else (false, st, [t1, t2, t3])

/-- `PowerOceanMqttClient.disconnect`: with a live client, stop it, clear the
subscription set and reset the connected flag; a second call is a no-op. -/
def clientDisconnect (st : ClientState) : ClientState :=
  if st.hasClient then ⟨false, false, []⟩ else st

/-- Python `topic.split("/")` (single-character separator). -/
def splitCharAux (sep : Char) : List Char → List Char → List String
  | [], acc => [String.mk acc.reverse]
  | c :: rest, acc =>
    if c = sep then String.mk acc.reverse :: splitCharAux sep rest []
    else splitCharAux sep rest (c :: acc)

def pySplitSlash (s : String) : List String := splitCharAux '/' s.data []

/-- The serial-discovery loop of `_message_worker`: the first registered
pattern occurring in the topic triggers `topic.split("/")`, and the serial is
`parts[2]` when there are at least three parts (otherwise the loop never
breaks and no serial is found). -/
def findDeviceSn (cbs : List (String × ℕ)) (topic : String) : Option String :=
  let parts := pySplitSlash topic
  if cbs.any (fun p => strContainsSub topic p.1) && decide (3 ≤ parts.length) then
    some (parts.getD 2 "")
  else none

structure WorkerResult : Type where
  deviceData : List (String × List (String × JVal))
  invoked : List (ℕ × String)

/-- The callbacks fired for one message: every registered callback whose
pattern occurs in the topic, in registration order, given the topic. -/
def matchingCallbacks (cbs : List (String × ℕ)) (topic : String) : List (ℕ × String) :=
  (cbs.filter (fun p => strContainsSub topic p.1)).map (fun p => (p.2, topic))

/-- One iteration of `PowerOceanMqttClient._message_worker` on a dequeued
`(topic, payload)`.  `parsed` is the outcome of `json.loads(payload)`:
on `JSONDecodeError` the worker only logs and drops the message (there is no
fallback to the protobuf decoder — `mqtt_client.py` never references
`PowerOceanProtobufHandler`).  On success it finds the owning serial from the
topic via the registered patterns, ensures the device entry, copies property
updates key-by-key for `properties` topics (a non-dict payload raises, caught
by the worker's handler, dropping the message after the ensure), then fires
all matching callbacks. -/
def workerProcess (cbs : List (String × ℕ))
    (deviceData : List (String × List (String × JVal))) (topic : String)
    (parsed : Option JVal) : WorkerResult :=
  match parsed with
  | none => ⟨deviceData, []⟩
  | some payload =>
    match findDeviceSn cbs topic with
    | some sn =>
      if sn ≠ "" then
        let dd1 :=
          if (pyLookup deviceData sn).isNone then pyDictSet deviceData sn [] else deviceData
        if strContainsSub topic "properties" then
          match payload with
          | .obj props =>
            let inner := props.foldl (fun cur kv => pyDictSet cur kv.1 kv.2)
              ((pyLookup dd1 sn).getD [])
            ⟨pyDictSet dd1 sn inner, matchingCallbacks cbs topic⟩
          | _ => ⟨dd1, []⟩
        else ⟨dd1, matchingCallbacks cbs topic⟩
      else ⟨deviceData, matchingCallbacks cbs topic⟩
    | none => ⟨deviceData, matchingCallbacks cbs topic⟩

theorem foldl_pyDictSet_lookup_not_mem {κ α : Type} [DecidableEq κ]
    (items : List (κ × α)) :
    ∀ (start : List (κ × α)) (k : κ), (∀ p ∈ items, p.1 ≠ k) →
      pyLookup (items.foldl (fun acc kv => pyDictSet acc kv.1 kv.2) start) k =
        pyLookup start k := by
  induction items with
  | nil => intro start k _; rfl
  | cons p rest ih =>
    intro start k h
    simp only [List.foldl_cons]
    rw [ih _ k (fun q hq => h q (by simp [hq])),
      pyLookup_dictSet_ne _ _ _ _ (h p (by simp))]

theorem foldl_pyDictSet_lookup_mem {κ α : Type} [DecidableEq κ]
    (items : List (κ × α)) :
    ∀ (start : List (κ × α)) (k : κ) (w : α), (k, w) ∈ items →
      (items.map Prod.fst).Nodup →
      pyLookup (items.foldl (fun acc kv => pyDictSet acc kv.1 kv.2) start) k = some w := by
  induction items with
  | nil => intro start k w h _; simp at h
  | cons p rest ih =>
    intro start k w hmem hnodup
    obtain ⟨k1, w1⟩ := p
    simp only [List.foldl_cons]
    rcases List.mem_cons.mp hmem with heq | hrest
    · injection heq with h1 h2
      subst h1
      subst h2
      have hnot : ∀ q ∈ rest, q.1 ≠ k := by
        intro q hq
        simp only [List.map_cons, List.nodup_cons] at hnodup
        intro he
        exact hnodup.1 (he ▸ List.mem_map_of_mem Prod.fst hq)
      rw [foldl_pyDictSet_lookup_not_mem rest _ k hnot, pyLookup_dictSet_self]
    · exact ih _ k w hrest (by simpa using hnodup.of_cons)

/-- C2 (amended): on a dequeued message the worker attempts the JSON decode
and, when it fails, logs and drops the message — device state unchanged, no
callbacks, and no fallback into the binary payload decoder.  On a successful
decode of a JSON object it fires every callback whose registered pattern
occurs in the topic (in registration order), and for a `properties` topic with
a discovered, non-empty serial it copies every property of the update into
that device's state. -/
theorem worker_step_spec :
    (∀ (cbs : List (String × ℕ)) dd topic,
      workerProcess cbs dd topic none = ⟨dd, []⟩) ∧
    (∀ (cbs : List (String × ℕ)) dd topic props,
      (workerProcess cbs dd topic (some (.obj props))).invoked =
        matchingCallbacks cbs topic) ∧
    (∀ (cbs : List (String × ℕ)) dd topic props sn,
      findDeviceSn cbs topic = some sn → sn ≠ "" →
      strContainsSub topic "properties" = true →
      (props.map Prod.fst).Nodup →
      ∃ inner,
        pyLookup (workerProcess cbs dd topic (some (.obj props))).deviceData sn =
          some inner ∧
        ∀ p ∈ props, pyLookup inner p.1 = some p.2) := by
  refine ⟨fun cbs dd topic => rfl, fun cbs dd topic props => ?_,
    fun cbs dd topic props sn hsn hne hprop hnodup => ?_⟩
  · rw [workerProcess]
    rcases h : findDeviceSn cbs topic with _ | sn
    · rfl
    · by_cases hne : sn = ""
      · simp [hne]
      · by_cases hp : strContainsSub topic "properties" = true <;> simp [hne, hp]
  · rw [workerProcess]
    simp only [hsn, hprop]
    rw [if_pos hne, if_pos trivial]
    refine ⟨_, pyLookup_dictSet_self _ _ _, fun p hp => ?_⟩
    exact foldl_pyDictSet_lookup_mem props _ p.1 p.2 (by simpa using hp) hnodup

/-- Witness for C2 (amended) on a concrete properties message. -/
theorem worker_step_spec_witness :
    (workerProcess [("device", 0)] [] "thingspro/device/SN1/properties" none =
      ⟨[], []⟩) ∧
    ((workerProcess [("device", 0)] [] "thingspro/device/SN1/properties"
        (some (.obj [("soc", .num 42)]))).invoked =
      matchingCallbacks [("device", 0)] "thingspro/device/SN1/properties") ∧
    (∃ inner,
      pyLookup (workerProcess [("device", 0)] [] "thingspro/device/SN1/properties"
          (some (.obj [("soc", .num 42)]))).deviceData "SN1" = some inner ∧
      ∀ p ∈ [(("soc" : String), JVal.num 42)], pyLookup inner p.1 = some p.2) :=
  ⟨worker_step_spec.1 [("device", 0)] [] "thingspro/device/SN1/properties",
   worker_step_spec.2.1 [("device", 0)] [] "thingspro/device/SN1/properties"
     [("soc", .num 42)],
   worker_step_spec.2.2 [("device", 0)] [] "thingspro/device/SN1/properties"
     [("soc", .num 42)] "SN1" rfl (by decide) (by decide) (by decide)⟩

/-- Counterexample to C2 as stated: a message whose payload fails the JSON
decode but decodes fine in the binary TLV format (body `[8, 5]`, i.e. field 1
varint 5), on a topic matched by a registered callback, is simply dropped —
no state change and no callback — so the worker never falls back to the
Payload Decoder. -/
theorem worker_no_binary_fallback :
    workerProcess [("device", 0)] [] "thingspro/device/SN1/properties" none =
      ⟨[], []⟩ ∧
    decodeFields [8, 5] [] = .ok [(1, .int 5)] ∧
    strContainsSub "thingspro/device/SN1/properties" "device" = true := by
  refine ⟨rfl, ?_, by decide⟩
  rw [decodeFields]
  norm_num [decodeVarint, decodeVarintAux, pyDictSet,
    show (8 : ℕ) &&& 7 = 0 from rfl, show (8 : ℕ) >>> 3 = 1 from rfl,
    show (5 : ℕ) &&& 128 = 0 from rfl, show (5 : ℕ) &&& 127 = 5 from rfl,
    show (5 : ℕ) <<< 0 = 5 from rfl]
  rw [decodeFields]

theorem mem_setAdd (s : List String) (t x : String) :
    x ∈ setAdd s t ↔ x = t ∨ x ∈ s := by
  by_cases h : t ∈ s
  · simp only [setAdd, if_pos h]
    constructor
    · exact fun hx => Or.inr hx
    · rintro (rfl | hx)
      · exact h
      · exact hx
  · simp [setAdd, if_neg h]

/-- C9: `async_subscribe_to_device` is idempotent.  When not connected it
returns `False` and changes nothing.  When connected, and the broker accepts
the three subscriptions, a first call returns `True`, and a second call for
the same serial returns `True` again while performing no broker subscriptions
and leaving the state (in particular the subscribed-topic set) unchanged. -/
theorem subscribe_idempotent (brokerOk : String → Bool) (st : ClientState)
    (sn : String) :
    (st.connected = false → subscribeToDevice brokerOk st sn = (false, st, [])) ∧
    (st.connected = true → brokerOk (statusTopic sn) = true →
      brokerOk (propertyTopic sn) = true → brokerOk (setResultTopic sn) = true →
      (subscribeToDevice brokerOk st sn).1 = true ∧
      subscribeToDevice brokerOk (subscribeToDevice brokerOk st sn).2.1 sn =
        (true, (subscribeToDevice brokerOk st sn).2.1, [])) := by
  constructor
  · intro hc
    simp [subscribeToDevice, hc]
  · intro hc h1 h2 h3
    by_cases hmem : statusTopic sn ∈ st.subscribedTopics
    · simp [subscribeToDevice, hc, hmem]
    · have hfirst : subscribeToDevice brokerOk st sn =
          (true,
            { st with subscribedTopics :=
                setAdd (setAdd (setAdd st.subscribedTopics (statusTopic sn))
                  (propertyTopic sn)) (setResultTopic sn) },
            [statusTopic sn, propertyTopic sn, setResultTopic sn]) := by
        simp [subscribeToDevice, hc, hmem, h1, h2, h3]
      have hmem2 : statusTopic sn ∈
          setAdd (setAdd (setAdd st.subscribedTopics (statusTopic sn))
            (propertyTopic sn)) (setResultTopic sn) := by
        simp [mem_setAdd]
      refine ⟨by rw [hfirst], ?_⟩
      rw [hfirst]
      simp [subscribeToDevice, hc, hmem2]

/-- Witness for C9: from a fresh connected state with an accepting broker,
two consecutive calls for `"SN1"` both succeed and the second is a no-op;
from a disconnected state the call fails. -/
theorem subscribe_idempotent_witness :
    ((subscribeToDevice (fun _ => true) ⟨true, true, []⟩ "SN1").1 = true ∧
      subscribeToDevice (fun _ => true)
          (subscribeToDevice (fun _ => true) ⟨true, true, []⟩ "SN1").2.1 "SN1" =
        (true, (subscribeToDevice (fun _ => true) ⟨true, true, []⟩ "SN1").2.1, [])) ∧
    subscribeToDevice (fun _ => true) ⟨true, false, []⟩ "SN1" =
      (false, ⟨true, false, []⟩, []) :=
  ⟨(subscribe_idempotent (fun _ => true) ⟨true, true, []⟩ "SN1").2 rfl rfl rfl rfl,
   (subscribe_idempotent (fun _ => true) ⟨true, false, []⟩ "SN1").1 rfl⟩

/-- Last two characters of a list, used to tell the three topic suffixes
(`...us`, `...es`, `...lt`) apart for every serial. -/
def lastTwo (l : List Char) : Option (Char × Char) :=
  match l.reverse with
  | b :: a :: _ => some (a, b)
  | _ => none

theorem lastTwo_append (x z : List Char) (a b : Char) :
    lastTwo (x ++ (z ++ [a, b])) = some (a, b) := by
  simp [lastTwo, List.reverse_append]

theorem statusTopic_lastTwo (sn : String) :
    lastTwo (statusTopic sn).data = some ('u', 's') := by
  have h : (statusTopic sn).data =
      ("thingspro/device/".data ++ sn.data) ++ ("/stat".data ++ ['u', 's']) := by
    simp only [statusTopic, String.data_append]
    rfl
  rw [h, lastTwo_append]

theorem propertyTopic_lastTwo (sn : String) :
    lastTwo (propertyTopic sn).data = some ('e', 's') := by
  have h : (propertyTopic sn).data =
      ("thingspro/device/".data ++ sn.data) ++ ("/properti".data ++ ['e', 's']) := by
    simp only [propertyTopic, String.data_append]
    rfl
  rw [h, lastTwo_append]

theorem setResultTopic_lastTwo (sn : String) :
    lastTwo (setResultTopic sn).data = some ('l', 't') := by
  have h : (setResultTopic sn).data =
      ("thingspro/device/".data ++ sn.data) ++ ("/property/set/resu".data ++ ['l', 't']) := by
    simp only [setResultTopic, String.data_append]
    rfl
  rw [h, lastTwo_append]

theorem statusTopic_ne_propertyTopic (a b : String) : statusTopic a ≠ propertyTopic b := by
  intro he
  have h := congrArg (fun s => lastTwo s.data) he
  simp only [statusTopic_lastTwo, propertyTopic_lastTwo] at h
  simp at h

theorem statusTopic_ne_setResultTopic (a b : String) : statusTopic a ≠ setResultTopic b := by
  intro he
  have h := congrArg (fun s => lastTwo s.data) he
  simp only [statusTopic_lastTwo, setResultTopic_lastTwo] at h
  simp at h

theorem propertyTopic_ne_setResultTopic (a b : String) :
    propertyTopic a ≠ setResultTopic b := by
  intro he
  have h := congrArg (fun s => lastTwo s.data) he
  simp only [propertyTopic_lastTwo, setResultTopic_lastTwo] at h
  simp at h

theorem statusTopic_inj (a b : String) (h : statusTopic a = statusTopic b) : a = b := by
  have hd := congrArg String.data h
  simp only [statusTopic, String.data_append] at hd
  exact String.ext (List.append_cancel_left (List.append_cancel_right hd))

theorem propertyTopic_inj (a b : String) (h : propertyTopic a = propertyTopic b) :
    a = b := by
  have hd := congrArg String.data h
  simp only [propertyTopic, String.data_append] at hd
  exact String.ext (List.append_cancel_left (List.append_cancel_right hd))

theorem setResultTopic_inj (a b : String) (h : setResultTopic a = setResultTopic b) :
    a = b := by
  have hd := congrArg String.data h
  simp only [setResultTopic, String.data_append] at hd
  exact String.ext (List.append_cancel_left (List.append_cancel_right hd))

/-- The three per-device topics are recorded together: a status topic is in
the subscription set exactly when the matching properties and
property-set-result topics are. -/
def topicInv (S : List String) : Prop :=
  ∀ sn : String, statusTopic sn ∈ S ↔ (propertyTopic sn ∈ S ∧ setResultTopic sn ∈ S)

/-- C10: the subscription-set invariant holds for the initial empty set and is
preserved by `async_subscribe_to_device` (any broker outcome) and by
`disconnect`. -/
theorem subscription_triple_invariant (brokerOk : String → Bool)
    (st : ClientState) (sn : String) (h : topicInv st.subscribedTopics) :
    topicInv ([] : List String) ∧
    topicInv (subscribeToDevice brokerOk st sn).2.1.subscribedTopics ∧
    topicInv (clientDisconnect st).subscribedTopics := by
  refine ⟨fun s => by simp, ?_, ?_⟩
  · rw [subscribeToDevice]
    by_cases hc : st.connected = false
    · simpa [hc] using h
    · simp only [hc, if_false]
      by_cases hmem : statusTopic sn ∈ st.subscribedTopics
      · simpa [hmem] using h
      · by_cases hok : (brokerOk (statusTopic sn) && brokerOk (propertyTopic sn) &&
            brokerOk (setResultTopic sn)) = true
        · rw [if_neg hmem, if_pos hok]
          show topicInv (setAdd (setAdd (setAdd st.subscribedTopics (statusTopic sn))
            (propertyTopic sn)) (setResultTopic sn))
          intro s
          simp only [mem_setAdd]
          by_cases hs : s = sn
          · subst hs
            simp
          · constructor
            · rintro (habs | habs | habs | hin)
              · exact absurd habs (statusTopic_ne_setResultTopic s sn)
              · exact absurd habs (statusTopic_ne_propertyTopic s sn)
              · exact absurd (statusTopic_inj s sn habs) hs
              · have hh := (h s).mp hin
                refine ⟨Or.inr (Or.inr (Or.inr hh.1)), Or.inr (Or.inr (Or.inr hh.2))⟩
            · rintro ⟨hp, hr⟩
              rcases hp with habs | habs | habs | hp
              · exact absurd habs (propertyTopic_ne_setResultTopic s sn)
              · exact absurd (propertyTopic_inj s sn habs) hs
              · exact absurd habs.symm (statusTopic_ne_propertyTopic sn s)
              · rcases hr with habs | habs | habs | hr
                · exact absurd (setResultTopic_inj s sn habs) hs
                · exact absurd habs.symm (propertyTopic_ne_setResultTopic sn s)
                · exact absurd habs.symm (statusTopic_ne_setResultTopic sn s)
                · exact Or.inr (Or.inr (Or.inr ((h s).mpr ⟨hp, hr⟩)))
        · simpa [hmem, hok] using h
  · rw [clientDisconnect]
    by_cases hcl : st.hasClient = true
    · simp only [hcl, if_true]
      intro s
      simp
    · simpa [hcl] using h

/-- Witness for C10: the invariant holds for the empty set, after a first
subscription from a fresh connected state, and after disconnect. -/
theorem subscription_triple_invariant_witness :
    topicInv ([] : List String) ∧
    topicInv (subscribeToDevice (fun _ => true) ⟨true, true, []⟩ "SN1").2.1.subscribedTopics ∧
    topicInv (clientDisconnect ⟨true, true, []⟩).subscribedTopics :=
  subscription_triple_invariant (fun _ => true) ⟨true, true, []⟩ "SN1"
    (fun s => by simp)

end PowerOcean
